import Mathlib

/-!
Shallow embedding of the `odo init` bootstrap subsystem
(`pkg/odo/cli/init/init.go`): the `Complete` / `Validate` / `Run` methods of
`InitOptions`, together with the collaborators they call.

The orchestrator code (`init.go`) is translated directly.  The collaborators
(`InitClient`, the `location` probes, the devfile library) are not part of the
source tree; where their behaviour matters they are modelled from the spec, and
where it does not they are injectable parameters (the `Clients` structure), so
that every theorem quantifying over `Clients` holds for any implementation of
the interfaces.

Paths are relative to the context directory (the spec fixes the context
directory to the process working directory, and the Go code removes the
manifest by the relative name `devfile.yaml`).
-/

namespace OdoInit

/-- A devfile command; only the group kind is observable by the orchestrator
(`common.DevfileOptions.CommandOptions.CommandGroupKind`). -/
structure DevCommand where
  id : String
  groupKind : String
  deriving DecidableEq

/-- The devfile manifest data observed by the orchestrator:
`metadata.name`, `metadata.language`, `metadata.projectType` and the command
list (`devfileObj.Data`). -/
structure Manifest where
  name : String
  language : String
  projectType : String
  commands : List DevCommand
  deriving DecidableEq

/-- Contents of a file on the injectable filesystem: either a parseable
devfile manifest or raw bytes (anything the devfile library fails to parse). -/
inductive FileData where
  | manifestFile (m : Manifest)
  | rawFile (s : String)
  deriving DecidableEq

/-- The observable side effects of one invocation, in order of occurrence.
`printMsg` is `fmt.Println`; `logItalic` is `log.Italic`. -/
inductive Event where
  | getwd
  | readDirEntries
  | statF (p : String)
  | readF (p : String)
  | writeF (p : String)
  | removeF (p : String)
  | netRequest
  | printMsg (s : String)
  | logItalic (s : String)
  deriving DecidableEq

/-- Events that are file-content or network I/O.  A `stat` (existence probe)
and `getwd` read no file content and touch no network. -/
def isIOEvent : Event → Bool
  | .readF _ => true
  | .writeF _ => true
  | .removeF _ => true
  | .netRequest => true
  | _ => false

/-- The filesystem under the context directory: an association list from
(relative) path to contents. -/
abbrev FS := List (String × FileData)

/-- Look a path up in the filesystem. -/
def lookupF : FS → String → Option FileData
  | [], _ => none
  | (q, d) :: fs, p => if p = q then some d else lookupF fs p

/-- `os.Remove`-like removal of a single path; a no-op when the path is
absent (the Go code ignores the returned error). -/
def removeFile (fs : FS) (p : String) : FS :=
  fs.filter (fun e => e.1 ≠ p)

/-- Write (create or overwrite) a single file. -/
def setFile (fs : FS) (p : String) (d : FileData) : FS :=
  (p, d) :: removeFile fs p

/-- Number of directory entries with the given name. -/
def countFile (fs : FS) (p : String) : Nat :=
  (fs.filter (fun e => e.1 = p)).length

/-- The world state an invocation acts on: the filesystem and the trace of
observable events so far. -/
structure World where
  fs : FS
  trace : List Event
  deriving DecidableEq

/-- Append one event to the trace. -/
def tracePush (w : World) (e : Event) : World :=
  { w with trace := w.trace ++ [e] }

/-- Telemetry facts on the run context (`scontext.Set*`); `none` means the
fact has not been set. -/
structure Telemetry where
  interactive : Option Bool := none
  componentType : Option String := none
  language : Option String := none
  projectType : Option String := none
  devfileName : Option String := none
  deriving DecidableEq

/-- A starter project descriptor (`v1alpha2.StarterProject`); the orchestrator
only reads its name. -/
structure StarterProject where
  name : String
  location : String := ""
  deriving DecidableEq

/-- The canonical flag mapping. -/
abbrev Flags := List (String × String)

/-- Is a flag key present in the mapping? -/
def hasFlag (fl : Flags) (k : String) : Bool :=
  (fl.lookup k).isSome

/-- The closed set of recognised flag keys (§6 CLI). -/
def flagKeys : List String :=
  ["name", "devfile", "devfile-registry", "starter", "devfile-path"]

/-- Modelled from the spec: `InitClient.GetFlags` canonicalises the raw
argv-derived mapping by dropping unrecognised keys and empty values (§4.C). -/
def getFlags (raw : Flags) : Flags :=
  raw.filter (fun p => flagKeys.contains p.1 && p.2 != "")

/-- The relative manifest file name, hard-coded in the source. -/
def manifestName : String := "devfile.yaml"

def alreadyInitMsg : String := "a devfile already exists in the current directory"

def notCleanedUpMsg : String :=
  "the command failed after downloading the starter project. By security, the directory is not cleaned up"

def manifestRemovedMsg : String :=
  "the command failed, the devfile has been removed from current directory"

def emptyDirMsg : String :=
  "The current directory is empty. odo will help you start a new project."

def existingSourcesMsg : String :=
  "The current directory already contains source code. odo will try to autodetect the language and project type in order to select the best suited Devfile for your project."

def nameErrText : String := "failed to update the devfile's name: "

/-- `fmt.Errorf("unable to download starter project %q: %w", name, err)`. -/
def downloadErrMsg (starterName e : String) : String :=
  "unable to download starter project \"" ++ starterName ++ "\": " ++ e

/-- Modelled from the spec: the error produced when re-parsing the starter's
bundled devfile fails (§4.H step 8b, "a parse failure here is fatal"). -/
def parseErrMsg : String := "failed to parse the devfile"

def flagConflictMsg : String := "FlagConflict"

def flagDependencyMsg : String := "FlagDependency"

def starterWithoutDevfileMsg : String := "StarterWithoutDevfile"

def deployHintMsg : String :=
  "\nTo deploy your component to a cluster use \"odo deploy\"."

/-- The final human message (the `exitMessage` built in `Run`), with the
deploy hint appended exactly when `hasDeploy` holds. -/
def exitMessage (name : String) (hasDeploy : Bool) : String :=
  "\nYour new component \"" ++ name ++ "\" is ready in the current directory.\nTo start editing your component, use \"odo dev\" and open this folder in your favorite IDE.\nChanges will be directly reflected on the cluster."
    ++ (if hasDeploy then deployHintMsg else "")

/-- `v1alpha2.DeployCommandGroupKind`. -/
def deployCommandGroupKind : String := "deploy"

/-- Modelled from the spec: `devfileObj.Data.GetCommands` filtered by group
kind `deploy` — the commands of the manifest whose group kind is `deploy`. -/
def deployCommands (m : Manifest) : List DevCommand :=
  m.commands.filter (fun cmd => cmd.groupKind == deployCommandGroupKind)

/-- Modelled from the spec: `component.GetComponentTypeFromDevfileMetadata`,
the componentType telemetry fact derived from the manifest metadata (§6). -/
def getComponentTypeFromDevfileMetadata (m : Manifest) : String :=
  if m.projectType ≠ "" then m.projectType
  else if m.language ≠ "" then m.language
  else "Not available"

/-- Modelled from the spec: `location.DirectoryContainsDevfile` — true iff a
file named `devfile.yaml` exists directly in the context directory (§4.B). -/
def containsDevfile (fs : FS) : Bool :=
  (lookupF fs manifestName).isSome

/-- Modelled from the spec: `InitClient.Validate` flag validation (§4.C):
`FlagConflict` if both `devfile` and `devfile-path` are present,
`FlagDependency` if `devfile-registry` is present without `devfile`,
`StarterWithoutDevfile` if `starter` is present while neither `devfile` nor
`devfile-path` are.  Purely a function of the flag mapping. -/
def validateFlags (fl : Flags) : Option String :=
  if hasFlag fl "devfile" && hasFlag fl "devfile-path" then
    some flagConflictMsg
  else if hasFlag fl "devfile-registry" && !hasFlag fl "devfile" then
    some flagDependencyMsg
  else if hasFlag fl "starter" && !hasFlag fl "devfile" && !hasFlag fl "devfile-path" then
    some starterWithoutDevfileMsg
  else none

/-- The collaborators `Run` calls through `o.clientset`.  The four methods are
arbitrary effectful functions (any implementation of the Go interfaces); the
three `Option String` fields inject faults into the operations whose success
behaviour is fixed (the emptiness probe, `SetMetadataName`, `GetCommands`). -/
structure Clients where
  selectAndPersonalizeDevfile : Flags → World → World × Except String (Manifest × String)
  selectStarterProject : Manifest → Flags → World → World × Except String (Option StarterProject)
  personalizeName : Manifest → Flags → World → World × Except String String
  downloadStarterProject : StarterProject → World → World × Except String Unit
  dirIsEmptyFault : Option String := none
  commitFault : Option String := none
  getCommandsFault : Option String := none

/-- The greeting chosen at the top of `Run`: printed only when the flag
mapping is empty, choosing the message by directory emptiness. -/
def greeting (isEmptyDir : Bool) (fl : Flags) : Option String :=
  if isEmptyDir && fl.isEmpty then some emptyDirMsg
  else if fl.isEmpty then some existingSourcesMsg
  else none

/-- The world after the greeting step of `Run`. -/
def greetWorld (isEmptyDir : Bool) (fl : Flags) (w : World) : World :=
  match greeting isEmptyDir fl with
  | some msg => tracePush w (.printMsg msg)
  | none => w

/-- Result of the body of `Run` (everything inside the deferred-rollback
scope): final world, telemetry, the `starterDownloaded` flag, and the error
if any. -/
structure BodyResult where
  world : World
  tel : Telemetry
  starterDownloaded : Bool
  err : Option String
  deriving DecidableEq

/-- The starter phase of `Run` (lines 156–171): if a starter was selected,
download it (`starterDownloaded` becomes true only after a successful
download), then if `fs.Stat(devfilePath)` succeeds re-parse the devfile from
disk; a parse failure is returned as an error.  Returns the world, the
`starterDownloaded` flag, the (possibly re-read) manifest and the error. -/
def starterPhase (c : Clients) (starterInfo : Option StarterProject)
    (devfilePath : String) (w : World) (devfileObj : Manifest) :
    World × Bool × Manifest × Option String :=
  match starterInfo with
  | none => (w, false, devfileObj, none)
  | some st =>
    match c.downloadStarterProject st w with
    | (w1, .error e) => (w1, false, devfileObj, some (downloadErrMsg st.name e))
    | (w1, .ok _) =>
      let w2 := tracePush w1 (.statF devfilePath)
      match lookupF w2.fs devfilePath with
      | none => (w2, true, devfileObj, none)
      | some fd =>
        let w3 := tracePush w2 (.readF devfilePath)
        match fd with
        | .manifestFile m => (w3, true, m, none)
        | .rawFile _ => (w3, true, devfileObj, some parseErrMsg)

/-- The manifest as committed by `SetMetadataName`: the in-memory manifest
with `metadata.name` replaced. -/
def commitManifest (m : Manifest) (name : String) : Manifest :=
  { m with name := name }

/-- The command list obtained by `commands, _ := devfileObj.Data.GetCommands(...)`
with the deploy group-kind filter: the error is discarded; on a failure the
library returns no commands. -/
def reportedCommands (c : Clients) (m : Manifest) : List DevCommand :=
  match c.getCommandsFault with
  | some _ => []
  | none => deployCommands m

/-- The four telemetry facts set after the commit (`scontext.Set*`,
lines 176–179). -/
def reportTelemetry (t : Telemetry) (m : Manifest) : Telemetry :=
  { t with componentType := some (getComponentTypeFromDevfileMetadata m),
           language := some m.language,
           projectType := some m.projectType,
           devfileName := some m.name }

/-- The commit and report phase of `Run` (lines 172–197): `SetMetadataName`
writes the devfile to disk, the four telemetry facts are set, and the exit
message is logged with the deploy hint appended iff `GetCommands` (whose
error is discarded) returns a non-empty list. -/
def commitAndReport (c : Clients) (devfilePath name : String)
    (devfileObj : Manifest) (sd : Bool) (w : World) (t : Telemetry) : BodyResult :=
  match c.commitFault with
  | some e => ⟨w, t, sd, some e⟩
  | none =>
    let m : Manifest := commitManifest devfileObj name
    ⟨{ fs := setFile w.fs devfilePath (.manifestFile m),
       trace := w.trace ++ [.writeF devfilePath,
         .logItalic (exitMessage m.name (!(reportedCommands c m).isEmpty))] },
     reportTelemetry t m, sd, none⟩

/-- The acquisition part of `Run` (lines 139–197): select a devfile, a
starter, a name; then the starter phase and the commit. -/
def runAcquire (c : Clients) (fl : Flags) (w : World) (t : Telemetry) : BodyResult :=
  match c.selectAndPersonalizeDevfile fl w with
  | (w1, .error e) => ⟨w1, t, false, some e⟩
  | (w1, .ok (devfileObj, devfilePath)) =>
    match c.selectStarterProject devfileObj fl w1 with
    | (w2, .error e) => ⟨w2, t, false, some e⟩
    | (w2, .ok starterInfo) =>
      match c.personalizeName devfileObj fl w2 with
      | (w3, .error e) => ⟨w3, t, false, some (nameErrText ++ e)⟩
      | (w3, .ok name) =>
        match starterPhase c starterInfo devfilePath w3 devfileObj with
        | (w4, sd, _, some e) => ⟨w4, t, sd, some e⟩
        | (w4, sd, m', none) => commitAndReport c devfilePath name m' sd w4 t

/-- The body of `InitOptions.Run` inside the deferred-rollback scope
(lines 128–197): the emptiness probe (with injectable failure), the greeting,
then acquisition. -/
def runBody (c : Clients) (fl : Flags) (w0 : World) (t : Telemetry) : BodyResult :=
  let w := tracePush w0 .readDirEntries
  match c.dirIsEmptyFault with
  | some e => ⟨w, t, false, some e⟩
  | none => runAcquire c fl (greetWorld w0.fs.isEmpty fl w) t

deriving instance DecidableEq for Except

/-- Outcome of `Run` (or of the whole invocation): world, telemetry and
result. -/
structure Outcome where
  world : World
  tel : Telemetry
  res : Except String Unit
  deriving DecidableEq

/-- `InitOptions.Run` (lines 112–198): the body wrapped in the deferred
rollback.  On an error with `starterDownloaded` the directory is left
untouched and the error annotated; otherwise `devfile.yaml` is removed
(best-effort, failure ignored) and the error annotated. -/
def run (c : Clients) (fl : Flags) (w : World) (t : Telemetry) : Outcome :=
  match runBody c fl w t with
  | ⟨w1, t1, _, none⟩ => ⟨w1, t1, .ok ()⟩
  | ⟨w1, t1, true, some e⟩ => ⟨w1, t1, .error (e ++ "\n" ++ notCleanedUpMsg)⟩
  | ⟨w1, t1, false, some e⟩ =>
    ⟨{ fs := removeFile w1.fs manifestName,
       trace := w1.trace ++ [.removeF manifestName] }, t1,
     .error (e ++ "\n" ++ manifestRemovedMsg)⟩

/-- `InitOptions.Complete` (lines 77–91): record the working directory,
canonicalise the flags, and set the interactive telemetry fact iff the
canonical mapping is empty. -/
def completeStep (raw : Flags) (w : World) (t : Telemetry) :
    World × Telemetry × Flags :=
  let w1 := tracePush w .getwd
  let fl := getFlags raw
  (w1, { t with interactive := some fl.isEmpty }, fl)

/-- `InitOptions.Validate` (lines 94–109): fail if the directory already
contains a devfile, then run flag validation. -/
def validateStep (fl : Flags) (w : World) : World × Option String :=
  let w1 := tracePush w (.statF manifestName)
  if containsDevfile w1.fs then (w1, some alreadyInitMsg)
  else (w1, validateFlags fl)

/-- Modelled from the spec: the generic driver runs `Complete`, then
`Validate`, then `Run`, stopping at the first error (§4.H steps 1–3; the
driver itself, `genericclioptions.GenericRun`, is outside the source tree). -/
def initPipeline (c : Clients) (raw : Flags) (w : World) (t : Telemetry) : Outcome :=
  match completeStep raw w t with
  | (w1, t1, fl) =>
    match validateStep fl w1 with
    | (w2, some e) => ⟨w2, t1, .error e⟩
    | (w2, none) => run c fl w2 t1

/-! ### Filesystem lemmas -/

theorem lookupF_removeFile_self (fs : FS) (p : String) :
    lookupF (removeFile fs p) p = none := by
  induction fs with
  | nil => rfl
  | cons e fs ih =>
    obtain ⟨a, d⟩ := e
    simp only [removeFile, List.filter_cons, ne_eq, decide_not, decide_eq_true_eq] at ih ⊢
    by_cases h : a = p
    · simpa [h] using ih
    · have hpa : ¬p = a := fun hp => h hp.symm
      simpa [h, lookupF, hpa] using ih

theorem lookupF_removeFile_ne (fs : FS) (p q : String) (h : q ≠ p) :
    lookupF (removeFile fs p) q = lookupF fs q := by
  induction fs with
  | nil => rfl
  | cons e fs ih =>
    obtain ⟨a, d⟩ := e
    simp only [removeFile, List.filter_cons, ne_eq, decide_not, decide_eq_true_eq] at ih ⊢
    by_cases he : a = p
    · subst he
      have hqa : ¬q = a := h
      simpa [lookupF, hqa] using ih
    · by_cases hq : q = a
      · simp [he, lookupF, hq]
      · simpa [he, lookupF, hq] using ih

theorem lookupF_setFile_self (fs : FS) (p : String) (d : FileData) :
    lookupF (setFile fs p d) p = some d := by
  simp [setFile, lookupF]

theorem lookupF_setFile_ne (fs : FS) (p q : String) (d : FileData) (h : q ≠ p) :
    lookupF (setFile fs p d) q = lookupF fs q := by
  simp [setFile, lookupF, h]
  exact lookupF_removeFile_ne fs p q h

theorem countFile_setFile_self (fs : FS) (p : String) (d : FileData) :
    countFile (setFile fs p d) p = 1 := by
  have hz : countFile (removeFile fs p) p = 0 := by
    simp only [countFile, List.length_eq_zero, List.filter_eq_nil_iff]
    intro a ha
    simp only [removeFile, List.mem_filter] at ha
    simpa using ha.2
  simp only [countFile, setFile, List.filter_cons] at hz ⊢
  simpa [countFile] using hz

/-! ### Inversion lemmas for the success path -/

theorem commitAndReport_ok_inversion (c : Clients) (p nm : String) (m : Manifest)
    (sd : Bool) (w : World) (t : Telemetry) (w' : World) (t' : Telemetry) (sd' : Bool)
    (hb : commitAndReport c p nm m sd w t = ⟨w', t', sd', none⟩) :
    c.commitFault = none ∧ sd' = sd ∧
    w' = { fs := setFile w.fs p (.manifestFile (commitManifest m nm)),
           trace := w.trace ++ [.writeF p,
             .logItalic (exitMessage (commitManifest m nm).name
               (!(reportedCommands c (commitManifest m nm)).isEmpty))] } ∧
    t' = reportTelemetry t (commitManifest m nm) := by
  unfold commitAndReport at hb
  cases hfault : c.commitFault with
  | some e => rw [hfault] at hb; simp at hb
  | none =>
    rw [hfault] at hb
    simp only [BodyResult.mk.injEq] at hb
    exact ⟨rfl, hb.2.2.1.symm, hb.1.symm, hb.2.1.symm⟩

theorem runAcquire_ok_inversion (c : Clients) (fl : Flags) (w : World) (t : Telemetry)
    (w' : World) (t' : Telemetry) (sd : Bool)
    (hb : runAcquire c fl w t = ⟨w', t', sd, none⟩) :
    ∃ w1 m p w2 stOpt w3 nm w4 sd0 m',
      c.selectAndPersonalizeDevfile fl w = (w1, Except.ok (m, p)) ∧
      c.selectStarterProject m fl w1 = (w2, Except.ok stOpt) ∧
      c.personalizeName m fl w2 = (w3, Except.ok nm) ∧
      starterPhase c stOpt p w3 m = (w4, sd0, m', none) ∧
      commitAndReport c p nm m' sd0 w4 t = ⟨w', t', sd, none⟩ := by
  unfold runAcquire at hb
  split at hb
  next w1 e heq => simp at hb
  next w1 m p heq =>
    split at hb
    next w2 e heq2 => simp at hb
    next w2 stOpt heq2 =>
      split at hb
      next w3 e heq3 => simp at hb
      next w3 nm heq3 =>
        split at hb
        next w4 sd0 m' e heq4 => simp at hb
        next w4 sd0 m' heq4 =>
          exact ⟨w1, m, p, w2, stOpt, w3, nm, w4, sd0, m',
            heq, heq2, heq3, heq4, hb⟩

theorem runBody_ok_inversion (c : Clients) (fl : Flags) (w0 : World) (t : Telemetry)
    (w' : World) (t' : Telemetry) (sd : Bool)
    (hb : runBody c fl w0 t = ⟨w', t', sd, none⟩) :
    c.dirIsEmptyFault = none ∧
    runAcquire c fl (greetWorld w0.fs.isEmpty fl (tracePush w0 .readDirEntries)) t =
      ⟨w', t', sd, none⟩ := by
  unfold runBody at hb
  cases hfault : c.dirIsEmptyFault with
  | some e => rw [hfault] at hb; simp at hb
  | none => rw [hfault] at hb; exact ⟨rfl, hb⟩

theorem run_ok_inversion (c : Clients) (fl : Flags) (w : World) (t : Telemetry)
    (h : (run c fl w t).res = Except.ok ()) :
    ∃ sd, runBody c fl w t = ⟨(run c fl w t).world, (run c fl w t).tel, sd, none⟩ := by
  cases hb : runBody c fl w t with
  | mk w1 t1 sd oe =>
    cases oe with
    | none => exact ⟨sd, by simp [run, hb]⟩
    | some e => exfalso; cases sd <;> simp [run, hb] at h

/-! ### The telemetry `interactive` fact is never touched after `Complete` -/

theorem commitAndReport_interactive (c : Clients) (p nm : String) (m : Manifest)
    (sd : Bool) (w : World) (t : Telemetry) :
    (commitAndReport c p nm m sd w t).tel.interactive = t.interactive := by
  unfold commitAndReport
  cases c.commitFault <;> simp [reportTelemetry]

theorem runAcquire_interactive (c : Clients) (fl : Flags) (w : World) (t : Telemetry) :
    (runAcquire c fl w t).tel.interactive = t.interactive := by
  unfold runAcquire
  split
  · rfl
  · split
    · rfl
    · split
      · rfl
      · split
        · rfl
        · exact commitAndReport_interactive ..

theorem runBody_interactive (c : Clients) (fl : Flags) (w : World) (t : Telemetry) :
    (runBody c fl w t).tel.interactive = t.interactive := by
  unfold runBody
  split
  · rfl
  · exact runAcquire_interactive ..

theorem run_tel (c : Clients) (fl : Flags) (w : World) (t : Telemetry) :
    (run c fl w t).tel = (runBody c fl w t).tel := by
  unfold run
  cases hb : runBody c fl w t with
  | mk w1 t1 sd oe => cases oe <;> cases sd <;> rfl

/-! ### Concrete sample collaborators, used to witness the theorems -/

/-- A sample manifest; it carries one command of group kind `deploy`. -/
def sampleManifest : Manifest :=
  { name := "orig", language := "JavaScript", projectType := "nodejs",
    commands := [⟨"deploy-k8s", "deploy"⟩, ⟨"start-app", "run"⟩] }

/-- The manifest bundled inside the sample starter archive. -/
def starterManifest : Manifest :=
  { name := "original", language := "JavaScript", projectType := "nodejs",
    commands := [⟨"start-app", "run"⟩] }

def starterX : StarterProject := { name := "nodejs-starter" }

def w0 : World := { fs := [], trace := [] }

def t0 : Telemetry := {}

/-- A directory that already contains a devfile. -/
def wDev : World := { fs := [(manifestName, .rawFile "kind: old")], trace := [] }

/-- Flags of scenario S4: name, devfile and starter. -/
def cexFlags : Flags := [("name", "x"), ("devfile", "nodejs"), ("starter", "nodejs-starter")]

/-- A raw flag mapping violating the exclusivity rule of §4.C. -/
def cexConflictRaw : Flags := [("devfile", "nodejs"), ("devfile-path", "./d.yaml")]

/-- Collaborators for a run with no starter, where every step succeeds: the
acquirer stages the manifest eagerly at `devfile.yaml`. -/
def happyClients : Clients where
  selectAndPersonalizeDevfile := fun _ w =>
    ({ fs := setFile w.fs manifestName (.manifestFile sampleManifest),
       trace := w.trace ++ [.netRequest, .writeF manifestName] },
     .ok (sampleManifest, manifestName))
  selectStarterProject := fun _ _ w => (w, .ok none)
  personalizeName := fun _ _ w => (w, .ok "my-app")
  downloadStarterProject := fun _ w => (w, .ok ())

/-- Collaborators whose starter download clears the directory, extracts part
of the archive and then fails: bytes have been extracted when the error is
returned. -/
def midFailClients : Clients where
  selectAndPersonalizeDevfile := fun _ w =>
    ({ fs := setFile w.fs manifestName (.manifestFile sampleManifest),
       trace := w.trace ++ [.netRequest, .writeF manifestName] },
     .ok (sampleManifest, manifestName))
  selectStarterProject := fun _ _ w => (w, .ok (some starterX))
  personalizeName := fun _ _ w => (w, .ok "my-app")
  downloadStarterProject := fun _ w =>
    ({ fs := setFile w.fs "src/partial.bin" (.rawFile "xx"),
       trace := w.trace ++ [.netRequest, .writeF "src/partial.bin"] },
     .error "extract failed")

/-- Collaborators whose starter download succeeds and replaces the whole
directory contents with the archive: a starter-bundled `devfile.yaml` plus a
source file. -/
def starterClients : Clients where
  selectAndPersonalizeDevfile := fun _ w =>
    ({ fs := setFile w.fs manifestName (.manifestFile sampleManifest),
       trace := w.trace ++ [.netRequest, .writeF manifestName] },
     .ok (sampleManifest, manifestName))
  selectStarterProject := fun _ _ w => (w, .ok (some starterX))
  personalizeName := fun _ _ w => (w, .ok "my-app")
  downloadStarterProject := fun _ w =>
    ({ fs := [(manifestName, .manifestFile starterManifest), ("index.js", .rawFile "console.log(1)")],
       trace := w.trace ++ [.netRequest, .writeF manifestName, .writeF "index.js"] },
     .ok ())

/-! ### Step-level equation lemmas for the pipeline -/

theorem initPipeline_eq (c : Clients) (raw : Flags) (w : World) (t : Telemetry) :
    initPipeline c raw w t =
      (match validateStep (getFlags raw) (tracePush w .getwd) with
       | (w2, some e) =>
         ⟨w2, { t with interactive := some (getFlags raw).isEmpty }, .error e⟩
       | (w2, none) =>
         run c (getFlags raw) w2 { t with interactive := some (getFlags raw).isEmpty }) :=
  rfl

theorem validateStep_contains (fl : Flags) (w : World) (h : containsDevfile w.fs = true) :
    validateStep fl w = (tracePush w (.statF manifestName), some alreadyInitMsg) := by
  unfold validateStep
  simp [tracePush, h]

theorem validateStep_clean (fl : Flags) (w : World) (h : containsDevfile w.fs = false) :
    validateStep fl w = (tracePush w (.statF manifestName), validateFlags fl) := by
  unfold validateStep
  simp [tracePush, h]

/-! ### C8 — the interactive telemetry fact -/

/-- C8: on every invocation the interactive telemetry fact is set to true iff
the canonical flag mapping is empty; it is set during completion, so it is
recorded whatever the rest of the invocation does (success or failure). -/
theorem interactive_fact_always_set (c : Clients) (raw : Flags) (w : World) (t : Telemetry) :
    (initPipeline c raw w t).tel.interactive = some (getFlags raw).isEmpty := by
  rw [initPipeline_eq]
  cases hv : validateStep (getFlags raw) (tracePush w .getwd) with
  | mk w2 oe =>
    cases oe with
    | some e => rfl
    | none =>
      show (run c (getFlags raw) w2
        { t with interactive := some (getFlags raw).isEmpty }).tel.interactive =
        some (getFlags raw).isEmpty
      rw [run_tel, runBody_interactive]

/-! ### C3 — already-initialised directories are rejected untouched -/

/-- C3: if the starting directory already contains `devfile.yaml`, the
invocation fails with the already-initialised error and the filesystem is
left byte-identical. -/
theorem already_initialised_non_clobber (c : Clients) (raw : Flags) (w : World)
    (t : Telemetry) (d : FileData) (h : lookupF w.fs manifestName = some d) :
    (initPipeline c raw w t).res = Except.error alreadyInitMsg ∧
    (initPipeline c raw w t).world.fs = w.fs := by
  have hcd : containsDevfile (tracePush w .getwd).fs = true := by
    simp [containsDevfile, tracePush, h]
  rw [initPipeline_eq, validateStep_contains _ _ hcd]
  exact ⟨rfl, rfl⟩

/-- Witness for C3 at a concrete directory already holding a devfile. -/
theorem already_initialised_non_clobber_witness :
    (initPipeline happyClients [] wDev t0).res = Except.error alreadyInitMsg ∧
    (initPipeline happyClients [] wDev t0).world.fs = wDev.fs :=
  already_initialised_non_clobber happyClients [] wDev t0 (.rawFile "kind: old") (by decide)

/-! ### C6 — flag violations fail before any I/O -/

/-- The flag-validation rules of §4.C, as the claim states them: `devfile`
together with `devfile-path`; `devfile-registry` without `devfile`; `starter`
without a manifest flag. -/
def ViolatesFlagRules (fl : Flags) : Prop :=
  (hasFlag fl "devfile" = true ∧ hasFlag fl "devfile-path" = true) ∨
  (hasFlag fl "devfile-registry" = true ∧ hasFlag fl "devfile" = false) ∨
  (hasFlag fl "starter" = true ∧ hasFlag fl "devfile" = false ∧
    hasFlag fl "devfile-path" = false)

instance : DecidablePred ViolatesFlagRules := fun fl => by
  unfold ViolatesFlagRules
  infer_instance

theorem validateFlags_of_violation (fl : Flags) (h : ViolatesFlagRules fl) :
    ∃ e, validateFlags fl = some e := by
  unfold validateFlags
  rcases h with ⟨h1, h2⟩ | ⟨h1, h2⟩ | ⟨h1, h2, h3⟩
  · exact ⟨flagConflictMsg, by simp [h1, h2]⟩
  · exact ⟨flagDependencyMsg, by simp [h1, h2]⟩
  · cases hr : hasFlag fl "devfile-registry"
    · exact ⟨starterWithoutDevfileMsg, by simp [h1, h2, h3, hr]⟩
    · exact ⟨flagDependencyMsg, by simp [h2, hr]⟩

/-- C6: a flag mapping violating the validation rules makes the invocation
fail during validation: the filesystem is untouched and the only events that
have occurred are the working-directory query and the manifest existence
probe, neither of which reads or writes a file or touches the network. -/
theorem flag_violation_before_io (c : Clients) (raw : Flags) (w : World) (t : Telemetry)
    (h : ViolatesFlagRules (getFlags raw)) :
    (∃ e, (initPipeline c raw w t).res = Except.error e) ∧
    (initPipeline c raw w t).world.fs = w.fs ∧
    (initPipeline c raw w t).world.trace =
      w.trace ++ [Event.getwd, Event.statF manifestName] ∧
    (∀ ev, ev ∈ [Event.getwd, Event.statF manifestName] → isIOEvent ev = false) := by
  rw [initPipeline_eq]
  cases hcd : containsDevfile (tracePush w .getwd).fs
  · obtain ⟨e, he⟩ := validateFlags_of_violation _ h
    rw [validateStep_clean _ _ hcd, he]
    refine ⟨⟨e, rfl⟩, rfl, ?_, by decide⟩
    simp [tracePush]
  · rw [validateStep_contains _ _ hcd]
    refine ⟨⟨alreadyInitMsg, rfl⟩, rfl, ?_, by decide⟩
    simp [tracePush]

/-- Witness for C6 at the conflicting mapping of scenario S2. -/
theorem flag_violation_before_io_witness :
    (∃ e, (initPipeline happyClients cexConflictRaw w0 t0).res = Except.error e) ∧
    (initPipeline happyClients cexConflictRaw w0 t0).world.fs = w0.fs ∧
    (initPipeline happyClients cexConflictRaw w0 t0).world.trace =
      w0.trace ++ [Event.getwd, Event.statF manifestName] ∧
    (∀ ev, ev ∈ [Event.getwd, Event.statF manifestName] → isIOEvent ev = false) :=
  flag_violation_before_io happyClients cexConflictRaw w0 t0 (by decide)

/-! ### C1 — the rollback contract -/

/-- C1: whenever the body of `Run` ends in an error, the deferred rollback
annotates the error with the cleanup outcome; with `starterDownloaded` the
world is untouched, otherwise exactly the file `devfile.yaml` is removed
(best-effort: absent entries are ignored), every other path — including any
path inside a subdirectory — being preserved. -/
theorem rollback_contract (c : Clients) (fl : Flags) (w : World) (t : Telemetry)
    (e : String) (hb : (runBody c fl w t).err = some e) :
    (run c fl w t).res = Except.error
      (e ++ "\n" ++ (if (runBody c fl w t).starterDownloaded then notCleanedUpMsg
                     else manifestRemovedMsg)) ∧
    ((runBody c fl w t).starterDownloaded = true →
      (run c fl w t).world = (runBody c fl w t).world) ∧
    ((runBody c fl w t).starterDownloaded = false →
      lookupF (run c fl w t).world.fs manifestName = none ∧
      (∀ q, q ≠ manifestName →
        lookupF (run c fl w t).world.fs q = lookupF (runBody c fl w t).world.fs q) ∧
      (run c fl w t).world.trace =
        (runBody c fl w t).world.trace ++ [Event.removeF manifestName]) := by
  cases hbr : runBody c fl w t with
  | mk w1 t1 sd oe =>
    rw [hbr] at hb
    have hoe : oe = some e := hb
    subst hoe
    cases sd
    · refine ⟨by simp [run, hbr], ?_, ?_⟩
      · intro hcontra; simp at hcontra
      · intro _
        refine ⟨?_, ?_, ?_⟩
        · simp [run, hbr, lookupF_removeFile_self]
        · intro q hq
          simp [run, hbr, lookupF_removeFile_ne w1.fs manifestName q hq]
        · simp [run, hbr]
    · refine ⟨by simp [run, hbr], ?_, ?_⟩
      · intro _; simp [run, hbr]
      · intro hcontra; simp at hcontra

/-- Witness for C1: a failing download with `starterDownloaded = false`; the
rollback removes the manifest and annotates the error. -/
theorem rollback_contract_witness :
    (run midFailClients cexFlags w0 t0).res = Except.error
      (downloadErrMsg "nodejs-starter" "extract failed" ++ "\n" ++ manifestRemovedMsg) ∧
    lookupF (run midFailClients cexFlags w0 t0).world.fs manifestName = none := by
  have h := rollback_contract midFailClients cexFlags w0 t0
    (downloadErrMsg "nodejs-starter" "extract failed") (by decide)
  have hsd : (runBody midFailClients cexFlags w0 t0).starterDownloaded = false := by decide
  refine ⟨?_, (h.2.2 hsd).1⟩
  have h1 := h.1
  rw [hsd] at h1
  simpa using h1

/-! ### C2 — the `starterDownloaded` flag across a failing download -/

/-- Counterexample to C2 as stated: a starter download that extracts bytes
(the partial file is present afterwards) and then fails leaves
`starterDownloaded = false`, and the rollback removes the manifest instead of
preserving the partial contents. -/
theorem starter_flag_mid_extraction_cex :
    (runBody midFailClients cexFlags w0 t0).starterDownloaded = false ∧
    (runBody midFailClients cexFlags w0 t0).err =
      some (downloadErrMsg "nodejs-starter" "extract failed") ∧
    lookupF (run midFailClients cexFlags w0 t0).world.fs "src/partial.bin" =
      some (.rawFile "xx") ∧
    (run midFailClients cexFlags w0 t0).res = Except.error
      (downloadErrMsg "nodejs-starter" "extract failed" ++ "\n" ++ manifestRemovedMsg) ∧
    lookupF (run midFailClients cexFlags w0 t0).world.fs manifestName = none := by
  decide

/-- C2 (amended): `starterDownloaded` becomes true only when
`DownloadStarterProject` returns without error; any download failure — also
one after bytes have been extracted — leaves it false, so the rollback
removes the manifest and annotates the error accordingly. -/
theorem download_failure_leaves_flag_false
    (c : Clients) (fl : Flags) (w0' w1 w2 w3 w4 : World) (t : Telemetry)
    (m : Manifest) (p : String) (st : StarterProject) (nm e : String)
    (hfault : c.dirIsEmptyFault = none)
    (hsel : c.selectAndPersonalizeDevfile fl
      (greetWorld w0'.fs.isEmpty fl (tracePush w0' .readDirEntries)) =
        (w1, Except.ok (m, p)))
    (hstar : c.selectStarterProject m fl w1 = (w2, Except.ok (some st)))
    (hname : c.personalizeName m fl w2 = (w3, Except.ok nm))
    (hdl : c.downloadStarterProject st w3 = (w4, Except.error e)) :
    runBody c fl w0' t = ⟨w4, t, false, some (downloadErrMsg st.name e)⟩ ∧
    (run c fl w0' t).res =
      Except.error (downloadErrMsg st.name e ++ "\n" ++ manifestRemovedMsg) ∧
    lookupF (run c fl w0' t).world.fs manifestName = none := by
  have hb : runBody c fl w0' t = ⟨w4, t, false, some (downloadErrMsg st.name e)⟩ := by
    unfold runBody runAcquire starterPhase
    simp only [hfault, hsel, hstar, hname, hdl]
  exact ⟨hb, by simp [run, hb], by simp [run, hb, lookupF_removeFile_self]⟩

def cexW1 : World :=
  { fs := [(manifestName, .manifestFile sampleManifest)],
    trace := [.readDirEntries, .netRequest, .writeF manifestName] }

def cexW4 : World :=
  { fs := [("src/partial.bin", .rawFile "xx"), (manifestName, .manifestFile sampleManifest)],
    trace := [.readDirEntries, .netRequest, .writeF manifestName,
      .netRequest, .writeF "src/partial.bin"] }

/-- Witness for the amended C2 at the concrete mid-extraction failure. -/
theorem download_failure_leaves_flag_false_witness :
    runBody midFailClients cexFlags w0 t0 =
      ⟨cexW4, t0, false, some (downloadErrMsg "nodejs-starter" "extract failed")⟩ ∧
    (run midFailClients cexFlags w0 t0).res =
      Except.error (downloadErrMsg "nodejs-starter" "extract failed" ++ "\n" ++
        manifestRemovedMsg) ∧
    lookupF (run midFailClients cexFlags w0 t0).world.fs manifestName = none :=
  download_failure_leaves_flag_false midFailClients cexFlags w0 cexW1 cexW1 cexW1 cexW4 t0
    sampleManifest manifestName starterX "my-app" "extract failed"
    rfl (by decide) (by decide) (by decide) (by decide)

/-! ### C5 — the starter's bundled manifest wins -/

theorem tracePush_fs (w : World) (e : Event) : (tracePush w e).fs = w.fs := rfl

/-- C5: after a successful starter download, if the staged devfile path
exists it is re-parsed, so the starter's bundled manifest wins: the committed
manifest is the archive's with only `metadata.name` replaced by the
personalised name; if the file on disk does not parse, the failure is fatal
(annotated as not cleaned up, since the starter was downloaded) and the file
is preserved on disk. -/
theorem starter_manifest_precedence
    (c : Clients) (fl : Flags) (w0' w1 w2 w3 w4 : World) (t : Telemetry)
    (m : Manifest) (p : String) (st : StarterProject) (nm : String)
    (hfault : c.dirIsEmptyFault = none)
    (hsel : c.selectAndPersonalizeDevfile fl
      (greetWorld w0'.fs.isEmpty fl (tracePush w0' .readDirEntries)) =
        (w1, Except.ok (m, p)))
    (hstar : c.selectStarterProject m fl w1 = (w2, Except.ok (some st)))
    (hname : c.personalizeName m fl w2 = (w3, Except.ok nm))
    (hdl : c.downloadStarterProject st w3 = (w4, Except.ok ())) :
    (∀ mStarter, lookupF w4.fs p = some (.manifestFile mStarter) →
      c.commitFault = none →
      (run c fl w0' t).res = Except.ok () ∧
      lookupF (run c fl w0' t).world.fs p =
        some (.manifestFile (commitManifest mStarter nm))) ∧
    (∀ s, lookupF w4.fs p = some (.rawFile s) →
      (run c fl w0' t).res = Except.error (parseErrMsg ++ "\n" ++ notCleanedUpMsg) ∧
      lookupF (run c fl w0' t).world.fs p = some (.rawFile s)) := by
  constructor
  · intro mStarter hlook hcommit
    constructor
    · simp [run, runBody, runAcquire, starterPhase, commitAndReport, tracePush_fs,
        hfault, hsel, hstar, hname, hdl, hlook, hcommit]
    · simp [run, runBody, runAcquire, starterPhase, commitAndReport, tracePush_fs,
        hfault, hsel, hstar, hname, hdl, hlook, hcommit, lookupF_setFile_self]
  · intro s hlook
    constructor
    · simp [run, runBody, runAcquire, starterPhase, tracePush_fs,
        hfault, hsel, hstar, hname, hdl, hlook]
    · simp [run, runBody, runAcquire, starterPhase, tracePush_fs,
        hfault, hsel, hstar, hname, hdl, hlook]

/-- The world after the sample starter download: the archive replaced the
directory contents wholesale. -/
def cexW4s : World :=
  { fs := [(manifestName, .manifestFile starterManifest),
           ("index.js", .rawFile "console.log(1)")],
    trace := [.readDirEntries, .netRequest, .writeF manifestName,
      .netRequest, .writeF manifestName, .writeF "index.js"] }

/-- Witness for C5: the starter carries a devfile; the final manifest is the
starter's with only the name personalised (scenario S4). -/
theorem starter_manifest_precedence_witness :
    (run starterClients cexFlags w0 t0).res = Except.ok () ∧
    lookupF (run starterClients cexFlags w0 t0).world.fs manifestName =
      some (.manifestFile (commitManifest starterManifest "my-app")) :=
  (starter_manifest_precedence starterClients cexFlags w0 cexW1 cexW1 cexW1 cexW4s t0
    sampleManifest manifestName starterX "my-app"
    rfl (by decide) (by decide) (by decide) (by decide)).1
    starterManifest (by decide) rfl

/-! ### C9 — telemetry and the deploy hint on success -/

theorem deployCommands_iff (m : Manifest) :
    (!(deployCommands m).isEmpty) = true ↔
      ∃ cmd ∈ m.commands, cmd.groupKind = deployCommandGroupKind := by
  rw [Bool.not_eq_true']
  constructor
  · intro hne
    have hnil : deployCommands m ≠ [] := by
      intro hcon
      rw [hcon] at hne
      simp at hne
    obtain ⟨cmd, hmem⟩ := List.exists_mem_of_ne_nil _ hnil
    have h2 := List.mem_filter.mp hmem
    exact ⟨cmd, h2.1, by simpa using h2.2⟩
  · rintro ⟨cmd, hmem, hk⟩
    have hin : cmd ∈ deployCommands m :=
      List.mem_filter.mpr ⟨hmem, by simp [hk]⟩
    cases hE : (deployCommands m).isEmpty
    · rfl
    · exfalso
      rw [List.isEmpty_iff] at hE
      simp [hE] at hin

/-- C9: on every successful run over collaborators that stage the manifest at
`devfile.yaml` and with a working command enumeration, the four telemetry
facts are set from the final on-disk manifest, and the final message is
logged with the deploy hint appended iff that on-disk manifest has a command
whose group kind is `deploy`.  `mf` is pinned as the manifest stored at
`devfile.yaml` in the final filesystem, so the hint flag inside the logged
message is that of the committed manifest. -/
theorem deploy_hint_iff (c : Clients) (fl : Flags) (w : World) (t : Telemetry)
    (hpath : ∀ fl' w' w1 m p,
      c.selectAndPersonalizeDevfile fl' w' = (w1, Except.ok (m, p)) → p = manifestName)
    (hcmd : c.getCommandsFault = none)
    (h : (run c fl w t).res = Except.ok ()) :
    ∃ mf pre,
      lookupF (run c fl w t).world.fs manifestName = some (.manifestFile mf) ∧
      (run c fl w t).tel.componentType = some (getComponentTypeFromDevfileMetadata mf) ∧
      (run c fl w t).tel.language = some mf.language ∧
      (run c fl w t).tel.projectType = some mf.projectType ∧
      (run c fl w t).tel.devfileName = some mf.name ∧
      (run c fl w t).world.trace =
        pre ++ [Event.logItalic (exitMessage mf.name (!(deployCommands mf).isEmpty))] ∧
      ((!(deployCommands mf).isEmpty) = true ↔
        ∃ cmd ∈ mf.commands, cmd.groupKind = deployCommandGroupKind) := by
  obtain ⟨sd, hb⟩ := run_ok_inversion c fl w t h
  obtain ⟨hfault, hacq⟩ := runBody_ok_inversion c fl w t _ _ _ hb
  obtain ⟨w1, m, p, w2, stOpt, w3, nm, w4, sd0, m', hsel, hstar, hname, hsp, hcommit⟩ :=
    runAcquire_ok_inversion c fl _ t _ _ _ hacq
  obtain ⟨hcf, hsd, hw, ht⟩ := commitAndReport_ok_inversion c p nm m' sd0 w4 t _ _ _ hcommit
  have hp : p = manifestName := hpath _ _ _ _ _ hsel
  subst hp
  refine ⟨commitManifest m' nm, w4.trace ++ [Event.writeF manifestName], ?_, ?_, ?_, ?_, ?_,
    ?_, deployCommands_iff _⟩
  · rw [hw]; exact lookupF_setFile_self _ _ _
  · rw [ht]; rfl
  · rw [ht]; rfl
  · rw [ht]; rfl
  · rw [ht]; rfl
  · rw [hw]
    have hrc : reportedCommands c (commitManifest m' nm) =
        deployCommands (commitManifest m' nm) := by
      simp [reportedCommands, hcmd]
    simp [hrc]

def happyFlags : Flags := [("name", "my-app"), ("devfile", "nodejs")]

/-- Witness for C9 at a successful flag-driven run. -/
theorem deploy_hint_iff_witness :
    ∃ mf pre,
      lookupF (run happyClients happyFlags w0 t0).world.fs manifestName =
        some (.manifestFile mf) ∧
      (run happyClients happyFlags w0 t0).tel.componentType =
        some (getComponentTypeFromDevfileMetadata mf) ∧
      (run happyClients happyFlags w0 t0).tel.language = some mf.language ∧
      (run happyClients happyFlags w0 t0).tel.projectType = some mf.projectType ∧
      (run happyClients happyFlags w0 t0).tel.devfileName = some mf.name ∧
      (run happyClients happyFlags w0 t0).world.trace =
        pre ++ [Event.logItalic (exitMessage mf.name (!(deployCommands mf).isEmpty))] ∧
      ((!(deployCommands mf).isEmpty) = true ↔
        ∃ cmd ∈ mf.commands, cmd.groupKind = deployCommandGroupKind) :=
  deploy_hint_iff happyClients happyFlags w0 t0
    (fun fl' w' w1 m p hsel => by
      simp only [happyClients, Prod.mk.injEq, Except.ok.injEq] at hsel
      exact hsel.2.2.symm)
    rfl (by decide)

/-! ### C10 — an error from the deploy-command enumeration is discarded -/

/-- C10: when `GetCommands` fails while building the final message, the error
is discarded: the run still returns success and the deploy hint is simply
omitted (the hint flag is false whatever the manifest's commands). -/
theorem getcommands_error_discarded
    (c : Clients) (fl : Flags) (w0' w1 w2 w3 w4 : World) (t : Telemetry)
    (m m' : Manifest) (p : String) (stOpt : Option StarterProject) (nm e : String)
    (sd : Bool)
    (hfault : c.dirIsEmptyFault = none)
    (hsel : c.selectAndPersonalizeDevfile fl
      (greetWorld w0'.fs.isEmpty fl (tracePush w0' .readDirEntries)) =
        (w1, Except.ok (m, p)))
    (hstar : c.selectStarterProject m fl w1 = (w2, Except.ok stOpt))
    (hname : c.personalizeName m fl w2 = (w3, Except.ok nm))
    (hsp : starterPhase c stOpt p w3 m = (w4, sd, m', none))
    (hcommit : c.commitFault = none)
    (hcmd : c.getCommandsFault = some e) :
    (run c fl w0' t).res = Except.ok () ∧
    (run c fl w0' t).world.trace =
      w4.trace ++ [Event.writeF p, Event.logItalic (exitMessage nm false)] := by
  constructor
  · simp [run, runBody, runAcquire, commitAndReport, reportedCommands,
      hfault, hsel, hstar, hname, hsp, hcommit, hcmd]
  · simp [run, runBody, runAcquire, commitAndReport, reportedCommands,
      hfault, hsel, hstar, hname, hsp, hcommit, hcmd, commitManifest]

/-- Collaborators identical to the happy ones, but whose command enumeration
fails. -/
def cmdFailClients : Clients :=
  { happyClients with getCommandsFault := some "commands broken" }

/-- Witness for C10: the manifest has a deploy command, the enumeration
fails, the run succeeds and the hint is omitted. -/
theorem getcommands_error_discarded_witness :
    (run cmdFailClients happyFlags w0 t0).res = Except.ok () ∧
    (run cmdFailClients happyFlags w0 t0).world.trace =
      cexW1.trace ++ [Event.writeF manifestName,
        Event.logItalic (exitMessage "my-app" false)] :=
  getcommands_error_discarded cmdFailClients happyFlags w0 cexW1 cexW1 cexW1 cexW1 t0
    sampleManifest sampleManifest manifestName none "my-app" "commands broken" false
    rfl (by decide) (by decide) (by decide) (by decide) rfl rfl

/-! ### C4 — on success, exactly one personalised manifest is on disk -/

/-- C4: on every successful run of collaborators that stage the manifest at
`devfile.yaml` (the spec fixes the staged path), the directory afterwards
holds exactly one entry named `devfile.yaml`, a manifest whose
`metadata.name` is the name returned by `PersonalizeName`; the commit is the
final write, after any starter overlay. -/
theorem success_manifest_personalised (c : Clients) (fl : Flags) (w : World)
    (t : Telemetry)
    (hpath : ∀ fl' w' w1 m p,
      c.selectAndPersonalizeDevfile fl' w' = (w1, Except.ok (m, p)) → p = manifestName)
    (h : (run c fl w t).res = Except.ok ()) :
    ∃ mf, lookupF (run c fl w t).world.fs manifestName = some (.manifestFile mf) ∧
      countFile (run c fl w t).world.fs manifestName = 1 ∧
      ∃ m0 wa wb, c.personalizeName m0 fl wa = (wb, Except.ok mf.name) := by
  obtain ⟨sd, hb⟩ := run_ok_inversion c fl w t h
  obtain ⟨hfault, hacq⟩ := runBody_ok_inversion c fl w t _ _ _ hb
  obtain ⟨w1, m, p, w2, stOpt, w3, nm, w4, sd0, m', hsel, hstar, hname, hsp, hcommit⟩ :=
    runAcquire_ok_inversion c fl _ t _ _ _ hacq
  obtain ⟨hcf, hsd, hw, ht⟩ := commitAndReport_ok_inversion c p nm m' sd0 w4 t _ _ _ hcommit
  have hp : p = manifestName := hpath _ _ _ _ _ hsel
  subst hp
  refine ⟨commitManifest m' nm, ?_, ?_, m, w2, w3, hname⟩
  · rw [hw]; exact lookupF_setFile_self _ _ _
  · rw [hw]; exact countFile_setFile_self _ _ _

/-- Witness for C4 at a successful flag-driven run. -/
theorem success_manifest_personalised_witness :
    ∃ mf, lookupF (run happyClients happyFlags w0 t0).world.fs manifestName =
        some (.manifestFile mf) ∧
      countFile (run happyClients happyFlags w0 t0).world.fs manifestName = 1 ∧
      ∃ m0 wa wb, happyClients.personalizeName m0 happyFlags wa =
        (wb, Except.ok mf.name) :=
  success_manifest_personalised happyClients happyFlags w0 t0
    (fun fl' w' w1 m p hsel => by
      simp only [happyClients, Prod.mk.injEq, Except.ok.injEq] at hsel
      exact hsel.2.2.symm)
    (by decide)

/-! ### C7 — the greeting is printed only in interactive mode -/

/-- Is an event the printing of one of the two greeting messages? -/
def isGreetingEvent : Event → Bool
  | .printMsg s => s == emptyDirMsg || s == existingSourcesMsg
  | _ => false

/-- The greeting events of a trace, in order. -/
def greetList (tr : List Event) : List Event :=
  tr.filter isGreetingEvent

theorem greetList_append (a b : List Event) :
    greetList (a ++ b) = greetList a ++ greetList b := by
  simp [greetList, List.filter_append]

theorem greetList_push_not (w : World) (e : Event) (h : isGreetingEvent e = false) :
    greetList ((tracePush w e).trace) = greetList w.trace := by
  simp [tracePush, greetList, List.filter_append, h]

theorem greetList_statF (p : String) : greetList [Event.statF p] = [] := rfl

theorem greetList_readF (p : String) : greetList [Event.readF p] = [] := rfl

theorem greetList_statF_readF (p q : String) :
    greetList [Event.statF p, Event.readF q] = [] := rfl

theorem greetList_writeF_logItalic (p s : String) :
    greetList [Event.writeF p, Event.logItalic s] = [] := rfl

theorem greetList_removeF (p : String) : greetList [Event.removeF p] = [] := rfl

theorem greetList_net_write (p : String) :
    greetList [Event.netRequest, Event.writeF p] = [] := rfl

theorem greetList_empty_single :
    greetList [Event.printMsg emptyDirMsg] = [Event.printMsg emptyDirMsg] := by
  have h : isGreetingEvent (Event.printMsg emptyDirMsg) = true := by
    simp [isGreetingEvent]
  simp [greetList, List.filter_cons, h]

theorem greetList_existing_single :
    greetList [Event.printMsg existingSourcesMsg] = [Event.printMsg existingSourcesMsg] := by
  have h : isGreetingEvent (Event.printMsg existingSourcesMsg) = true := by
    simp [isGreetingEvent]
  simp [greetList, List.filter_cons, h]

/-- Collaborators that never print a greeting themselves: every call leaves
the greeting events of the trace unchanged (real collaborators print prompts
and progress, never the two greeting messages). -/
def CleanClients (c : Clients) : Prop :=
  (∀ fl w, greetList ((c.selectAndPersonalizeDevfile fl w).1.trace) = greetList w.trace) ∧
  (∀ m fl w, greetList ((c.selectStarterProject m fl w).1.trace) = greetList w.trace) ∧
  (∀ m fl w, greetList ((c.personalizeName m fl w).1.trace) = greetList w.trace) ∧
  (∀ st w, greetList ((c.downloadStarterProject st w).1.trace) = greetList w.trace)

theorem starterPhase_greet (c : Clients)
    (hc4 : ∀ st w, greetList ((c.downloadStarterProject st w).1.trace) = greetList w.trace)
    (stOpt : Option StarterProject) (p : String) (w : World) (m : Manifest) :
    greetList ((starterPhase c stOpt p w m).1.trace) = greetList w.trace := by
  unfold starterPhase
  cases stOpt with
  | none => rfl
  | some st =>
    cases hdl : c.downloadStarterProject st w with
    | mk w1 r =>
      have h1 : greetList w1.trace = greetList w.trace := by
        have h := hc4 st w
        rw [hdl] at h
        exact h
      cases r with
      | error e => simp only [hdl]; exact h1
      | ok u =>
        cases hlk : lookupF w1.fs p with
        | none =>
          simp only [hdl, tracePush, hlk]
          simp [greetList_append, greetList_statF, h1]
        | some fd =>
          cases fd with
          | manifestFile m2 =>
            simp only [hdl, tracePush, hlk]
            simp [greetList_append, greetList_statF, greetList_readF,
              greetList_statF_readF, h1]
          | rawFile s =>
            simp only [hdl, tracePush, hlk]
            simp [greetList_append, greetList_statF, greetList_readF,
              greetList_statF_readF, h1]

theorem commitAndReport_greet (c : Clients) (p nm : String) (m : Manifest)
    (sd : Bool) (w : World) (t : Telemetry) :
    greetList ((commitAndReport c p nm m sd w t).world.trace) = greetList w.trace := by
  unfold commitAndReport
  cases c.commitFault with
  | some e => rfl
  | none =>
    rw [greetList_append, greetList_writeF_logItalic, List.append_nil]

theorem runAcquire_greet (c : Clients) (hc : CleanClients c) (fl : Flags)
    (w : World) (t : Telemetry) :
    greetList ((runAcquire c fl w t).world.trace) = greetList w.trace := by
  obtain ⟨hc1, hc2, hc3, hc4⟩ := hc
  unfold runAcquire
  cases hsel : c.selectAndPersonalizeDevfile fl w with
  | mk w1 r1 =>
    have h1 : greetList w1.trace = greetList w.trace := by
      have h := hc1 fl w
      rw [hsel] at h
      exact h
    cases r1 with
    | error e => simp only [hsel]; exact h1
    | ok mp =>
      obtain ⟨m, p⟩ := mp
      cases hstar : c.selectStarterProject m fl w1 with
      | mk w2 r2 =>
        have h2 : greetList w2.trace = greetList w1.trace := by
          have h := hc2 m fl w1
          rw [hstar] at h
          exact h
        cases r2 with
        | error e => simp only [hsel, hstar]; exact h2.trans h1
        | ok stOpt =>
          cases hname : c.personalizeName m fl w2 with
          | mk w3 r3 =>
            have h3 : greetList w3.trace = greetList w2.trace := by
              have h := hc3 m fl w2
              rw [hname] at h
              exact h
            cases r3 with
            | error e => simp only [hsel, hstar, hname]; exact h3.trans (h2.trans h1)
            | ok nm =>
              cases hsp : starterPhase c stOpt p w3 m with
              | mk w4 rest =>
                obtain ⟨sd, m', oe⟩ := rest
                have h4 : greetList w4.trace = greetList w3.trace := by
                  have h := starterPhase_greet c hc4 stOpt p w3 m
                  rw [hsp] at h
                  exact h
                cases oe with
                | some e =>
                  simp only [hsel, hstar, hname, hsp]
                  exact h4.trans (h3.trans (h2.trans h1))
                | none =>
                  simp only [hsel, hstar, hname, hsp]
                  rw [commitAndReport_greet]
                  exact h4.trans (h3.trans (h2.trans h1))

theorem run_greet (c : Clients) (fl : Flags) (w : World) (t : Telemetry) :
    greetList ((run c fl w t).world.trace) = greetList ((runBody c fl w t).world.trace) := by
  unfold run
  cases hb : runBody c fl w t with
  | mk w1 t1 sd oe =>
    cases oe with
    | none => cases sd <;> rfl
    | some e =>
      cases sd
      · show greetList (w1.trace ++ [Event.removeF manifestName]) = greetList w1.trace
        rw [greetList_append, greetList_removeF, List.append_nil]
      · rfl

theorem greetWorld_greet (b : Bool) (fl : Flags) (w : World) :
    greetList ((greetWorld b fl w).trace) =
      greetList w.trace ++
        (if fl.isEmpty then
          [Event.printMsg (if b then emptyDirMsg else existingSourcesMsg)]
        else []) := by
  cases b <;> cases hfe : fl.isEmpty
  · simp [greetWorld, greeting, hfe]
  · simp [greetWorld, greeting, hfe, tracePush, greetList_append, greetList_existing_single]
  · simp [greetWorld, greeting, hfe]
  · simp [greetWorld, greeting, hfe, tracePush, greetList_append, greetList_empty_single]

/-- C7: over collaborators that print no greeting themselves, the whole of
`Run` adds exactly one greeting event when the flag mapping is empty — the
"empty directory" message on an empty directory, the "existing sources"
message otherwise — and none at all when any flag is present. -/
theorem greeting_interactive_only (c : Clients) (fl : Flags) (w : World) (t : Telemetry)
    (hc : CleanClients c) (hfault : c.dirIsEmptyFault = none) :
    greetList ((run c fl w t).world.trace) =
      greetList w.trace ++
        (if fl.isEmpty then
          [Event.printMsg (if w.fs.isEmpty then emptyDirMsg else existingSourcesMsg)]
        else []) := by
  rw [run_greet]
  have hb : runBody c fl w t =
      runAcquire c fl (greetWorld w.fs.isEmpty fl (tracePush w .readDirEntries)) t := by
    simp only [runBody, hfault]
  rw [hb, runAcquire_greet c hc, greetWorld_greet,
    greetList_push_not w .readDirEntries rfl]

/-- Witness for C7: interactive mode on an empty directory prints exactly the
"empty directory" greeting. -/
theorem greeting_interactive_only_witness :
    greetList ((run happyClients ([] : Flags) w0 t0).world.trace) =
      greetList w0.trace ++ [Event.printMsg emptyDirMsg] := by
  have hc : CleanClients happyClients := by
    refine ⟨?_, fun m fl w => rfl, fun m fl w => rfl, fun st w => rfl⟩
    intro fl w
    show greetList (w.trace ++ [Event.netRequest, Event.writeF manifestName]) =
      greetList w.trace
    rw [greetList_append, greetList_net_write, List.append_nil]
  have h := greeting_interactive_only happyClients [] w0 t0 hc rfl
  simpa using h

end OdoInit
